import Mathlib

/-!
Verification of the JobFlow AI repository: a shallow embedding of the
automation queue processor (`src/components/AutoPilot.tsx`), the queue and
log handling in `src/App.tsx`, the seniority filter of
`src/services/jobSources.ts`, and the AI service facade utilities
(retry wrapper, local scoring heuristic, JSON extraction) of the
gemini service module, together with proofs about the project's
documented behaviour.

Conventions of the embedding:
* JavaScript strings are Lean `String`s; character-level operations work on
  `List Char`.
* JavaScript numbers are `ℚ` (or `ℤ`/`Nat` where the source only ever holds
  integers); the IEEE value `NaN` is represented by `Option.none` where it
  can arise.
* Randomly generated ids and wall-clock timestamps are environment inputs;
  log entries are modelled by their message and type, which is all the
  program logic ever inspects.
* `JSON.parse` is an external browser builtin; it is modelled by a strict
  JSON parser (`jsonParse`) following the JSON grammar, which in particular
  rejects trailing commas, exactly as the builtin does.
-/

namespace JobFlow

/-! ## JavaScript-style string primitives -/

/-- Opening curly brace character (written via its code point). -/
def braceO : Char := Char.ofNat 123

/-- Closing curly brace character. -/
def braceC : Char := Char.ofNat 125

/-- Double-quote character. -/
def quoteCh : Char := Char.ofNat 34

/-- Backslash character. -/
def backslashCh : Char := Char.ofNat 92

/-- Backtick character. -/
def backtickCh : Char := Char.ofNat 96

/-- JavaScript whitespace as used by `trim`, `\s` and the JSON grammar
(the source texts only ever contain ASCII whitespace). -/
def isJsWs (c : Char) : Bool :=
  c = ' ' || c = Char.ofNat 9 || c = Char.ofNat 10 || c = Char.ofNat 13 ||
  c = Char.ofNat 12 || c = Char.ofNat 11

/-- `needle` occurs at the start of `hay` (character lists). -/
def charsPref : List Char → List Char → Bool
  | [], _ => true
  | _ :: _, [] => false
  | a :: as, b :: bs => a == b && charsPref as bs

/-- `needle` occurs somewhere inside `hay` (character lists);
models `String.prototype.includes`. -/
def charsSub (needle : List Char) : List Char → Bool
  | [] => charsPref needle []
  | b :: bs => charsPref needle (b :: bs) || charsSub needle bs

/-- JavaScript `haystack.includes(needle)`. -/
def strIncludes (haystack needle : String) : Bool :=
  charsSub needle.toList haystack.toList

/-- JavaScript `String.prototype.toLowerCase` (ASCII; all text the sources
compare is ASCII). -/
def jsLower (s : String) : String :=
  String.mk (s.toList.map Char.toLower)

/-- JavaScript `String.prototype.trim`. -/
def jsTrim (s : String) : String :=
  String.mk (((s.toList.dropWhile isJsWs).reverse.dropWhile isJsWs).reverse)

/-- First index of character `c`, or `none`; models `indexOf` (with `none`
for `-1`). -/
def idxOf (cs : List Char) (c : Char) : Option Nat :=
  match cs with
  | [] => none
  | b :: bs => if b == c then some 0 else (idxOf bs c).map (· + 1)

/-- Last index of character `c`, or `none`; models `lastIndexOf`. -/
def lastIdxOf (cs : List Char) (c : Char) : Option Nat :=
  match idxOf cs.reverse c with
  | none => none
  | some i => some (cs.length - 1 - i)

/-- JavaScript `String.prototype.substring`: clamps both indices to the
string bounds and swaps them when `a > b`. -/
def jsSubstring (s : String) (a b : Nat) : String :=
  let n := s.length
  let a' := min a n
  let b' := min b n
  let lo := min a' b'
  let hi := max a' b'
  String.mk ((s.toList.drop lo).take (hi - lo))

/-! ## Data model (src/types.ts) -/

/-- `JobListing.status` in `src/types.ts`. -/
inductive JobStatus where
  | new
  | analyzing
  | applying
  | applied
  | failed
  | skipped
deriving DecidableEq, Repr

/-- A terminal status with respect to the automated loop (spec §4.1). -/
def JobStatus.isTerminal : JobStatus → Bool
  | .applied => true
  | .skipped => true
  | .failed => true
  | _ => false

/-- `JobListing` in `src/types.ts` (the fields the program logic reads or
writes; `postedDate` and `interviewPrep` are never inspected by the code
under verification). -/
structure JobListing where
  id : String
  title : String
  company : String
  location : String
  url : String
  description : String
  source : String
  status : JobStatus
  matchScore : Option ℚ := none
  generatedCoverLetter : Option String := none
  applicationNotes : Option String := none
deriving DecidableEq, Repr

/-- `AutomationLog.type` in `src/types.ts`. -/
inductive LogType where
  | info
  | success
  | error
  | action
deriving DecidableEq, Repr

/-- `AutomationLog` in `src/types.ts`; the random `id` and the wall-clock
`timestamp` are generated by the environment and never inspected by the
program logic, so they are not part of the model. -/
structure AutomationLog where
  message : String
  type : LogType
deriving DecidableEq, Repr

/-! ## External job source adapter (src/services/jobSources.ts) -/

/-- `EXCLUSION_KEYWORDS` of `src/services/jobSources.ts`; lookup of a level
that is not a key yields `[]` (the `|| []` in `doesJobMatchLevel`). -/
def exclusionKeywords (level : String) : List String :=
  if level = "Entry Level" then
    ["senior", "snr", "principal", "lead", "staff", "manager", "head of",
     "director", "vp", "architect", "expert", "founding", "chief", "sr."]
  else if level = "Associate" then
    ["principal", "director", "vp", "head of", "chief", "architect"]
  else if level = "Mid-Senior Level" then
    ["intern", "junior", "entry level", "graduate"]
  else if level = "Director" then
    ["intern", "junior", "associate", "entry level", "mid-level"]
  else if level = "Executive" then
    ["intern", "junior", "associate", "mid-level", "senior", "lead"]
  else if level = "Internship" then
    ["senior", "lead", "principal", "staff", "manager", "architect",
     "head of"]
  else []

/-- `doesJobMatchLevel` of `src/services/jobSources.ts`: lowercase the title
and reject it as soon as one exclusion keyword for the level occurs in it. -/
def doesJobMatchLevel (title : String) (level : String) : Bool :=
  !(exclusionKeywords level).any (fun k => strIncludes (jsLower title) k)

/-- The experience-level filter step of `getAggregatedJobs`
(`if (experienceLevel) combined = combined.filter(...)`). -/
def applyLevelFilter (jobs : List JobListing) (level : Option String) :
    List JobListing :=
  match level with
  | some l => jobs.filter (fun j => doesJobMatchLevel j.title l)
  | none => jobs

/-! ## Queue merging and log handling (src/App.tsx) -/

/-- `addLog` of `src/App.tsx`: unconditionally appends one entry to the
in-memory log list (the random id and timestamp are environment-generated
and not modelled). -/
def addLog (logs : List AutomationLog) (message : String) (type : LogType) :
    List AutomationLog :=
  logs ++ [{ message := message, type := type }]

/-- The in-memory log list after a sequence of log-producing events,
starting from logs `init`: each event goes through `addLog`. -/
def memLogs (init : List AutomationLog) (events : List (String × LogType)) :
    List AutomationLog :=
  events.foldl (fun acc e => addLog acc e.1 e.2) init

/-- The `logs` field of the blob written by the save effect of
`src/App.tsx`: `logs.slice(-50)`, i.e. the last (up to) fifty entries. -/
def persistedLogs (logs : List AutomationLog) : List AutomationLog :=
  logs.drop (logs.length - 50)

/-- `addJobsToQueue` of `src/App.tsx`: drop the incoming listings whose
`url` is already present in the queue and append the rest, in order. -/
def addJobsToQueue (prev newJobs : List JobListing) : List JobListing :=
  let existingIds := prev.map (fun j => j.url)
  let filtered := newJobs.filter (fun j => !(existingIds.contains j.url))
  prev ++ filtered

/-- The number of distinct `url` values among the batch entries whose `url`
is not already in the queue (the quantity the spec's deduplication sentence
refers to). -/
def distinctNewUrls (prev batch : List JobListing) : Nat :=
  (((batch.map (fun j => j.url)).filter
      (fun u => !((prev.map (fun j => j.url)).contains u))).dedup).length

/-! ## Local intelligence engines (gemini service, src/unnamed/part_000) -/

/-- `STOP_WORDS` of the gemini service module. -/
def STOP_WORDS : List String :=
  ["the", "and", "a", "to", "of", "in", "for", "with", "on", "at", "from",
   "by", "an", "is", "it", "that", "this", "are", "be", "or", "as", "will",
   "can", "if", "not", "we", "you", "our", "your", "role", "experience",
   "work", "team", "skills", "years", "knowledge", "working", "using",
   "development", "design", "support", "business", "application", "systems",
   "solutions", "software", "engineer", "developer"]

/-- A `\w` character: letter, digit or underscore (ASCII). -/
def isWordChar (c : Char) : Bool :=
  (('a' ≤ c && c ≤ 'z') || ('A' ≤ c && c ≤ 'Z') ||
   ('0' ≤ c && c ≤ '9') || c = '_')

/-- The `replace(/[^\w\s]/g, '')` step: keep only word characters and
whitespace. -/
def stripNonWord (cs : List Char) : List Char :=
  cs.filter (fun c => isWordChar c || isJsWs c)

/-- `split(/\s+/)`: split on maximal whitespace runs, keeping the (possibly
empty) fields before the first and after the last run, as JavaScript does.
`afterSep` records that the previous character was part of the current
separator run. -/
def splitWsAux (cur : List Char) (afterSep : Bool) : List Char → List String
  | [] => [String.mk cur.reverse]
  | c :: cs =>
      if isJsWs c then
        if afterSep then splitWsAux [] true cs
        else String.mk cur.reverse :: splitWsAux [] true cs
      else
        splitWsAux (c :: cur) false cs

/-- `split(/\s+/)` on a string. -/
def splitWs (s : String) : List String := splitWsAux [] false s.toList

/-- The word `w` consists only of digits and is nonempty
(the `/^\d+$/` test). -/
def isAllDigits (w : String) : Bool :=
  !w.toList.isEmpty && w.toList.all (fun c => '0' ≤ c && c ≤ '9')

/-- A word survives the keyword filter of `extractKeywordsLocally`:
not a stop word, longer than two characters, not purely numeric. -/
def keepWord (w : String) : Bool :=
  !(STOP_WORDS.contains w) && w.length > 2 && !(isAllDigits w)

/-- Add one occurrence of `w` to the frequency table (an association list in
first-occurrence order, as JavaScript object keys are for these non-numeric
words). -/
def bumpFreq (m : List (String × Nat)) (w : String) : List (String × Nat) :=
  if (m.map (fun p => p.1)).contains w then
    m.map (fun p => if p.1 = w then (p.1, p.2 + 1) else p)
  else
    m ++ [(w, 1)]

/-- Stable insertion (descending by count): ties and smaller counts keep the
earlier entry first, matching JavaScript's stable `sort((a,b)=>b[1]-a[1])`. -/
def insertDesc (p : String × Nat) : List (String × Nat) → List (String × Nat)
  | [] => [p]
  | q :: qs => if p.2 > q.2 then p :: q :: qs else q :: insertDesc p qs

/-- Stable sort of the frequency table, descending by count. -/
def sortDescByCount (m : List (String × Nat)) : List (String × Nat) :=
  m.foldl (fun acc p => insertDesc p acc) []

/-- `extractKeywordsLocally` of the gemini service module: lowercase, strip
punctuation, split on whitespace, count the words surviving the filter,
sort by frequency (descending, stable) and keep the top fifteen. -/
def extractKeywordsLocally (text : String) : List String :=
  let words := splitWs (String.mk (stripNonWord (jsLower text).toList))
  let freq := words.foldl (fun m w => if keepWord w then bumpFreq m w else m) []
  ((sortDescByCount freq).take 15).map (fun p => p.1)

/-- JavaScript `Math.round (num / den) ` for nonnegative `num` and positive
`den` (round half toward positive infinity), computed with integer
arithmetic: `⌊num/den + 1/2⌋ = ⌊(2*num + den) / (2*den)⌋`. -/
def jsRoundRatio (num den : Nat) : Nat := (2 * num + den) / (2 * den)

/-- `ResumeOptimization` of `src/types.ts` (the numeric score is `none`
when the JavaScript computation produces `NaN`). -/
structure ResumeOptimization where
  score : Option Nat
  missingKeywords : List String
  suggestedImprovements : List String
  optimizedSummary : String
deriving DecidableEq, Repr

/-- `charAt(0).toUpperCase() + slice(1)` on a keyword. -/
def capitalizeWord (w : String) : String :=
  match w.toList with
  | [] => ""
  | c :: cs => String.mk (c.toUpper :: cs)

/-- `optimizeResumeLocally` of the gemini service module. The raw score is
`Math.round((found / total) * 100)`; when the job description yields no
keywords this is `0/0 = NaN` in JavaScript, which propagates through
`Math.max`/`Math.min`, so the score field is `none` in that case. -/
def optimizeResumeLocally (jobDesc resumeText : String) : ResumeOptimization :=
  let jobKeywords := extractKeywordsLocally jobDesc
  let resumeLower := jsLower resumeText
  let missingKeywords := jobKeywords.filter (fun k => !(strIncludes resumeLower k))
  let foundKeywords := jobKeywords.filter (fun k => strIncludes resumeLower k)
  let adjustedScore : Option Nat :=
    if jobKeywords.length = 0 then none
    else
      some (min 98 (max 30
        (jsRoundRatio (foundKeywords.length * 100) jobKeywords.length + 20)))
  { score := adjustedScore
    missingKeywords := missingKeywords.map capitalizeWord
    suggestedImprovements :=
      ["Add specific experience with \"" ++
         String.intercalate "\" and \"" (missingKeywords.take 2) ++
         "\" to your summary.",
       "Quantify your impact using numbers (e.g., \"Improved " ++
         (foundKeywords.headD "performance") ++ " by 20%\").",
       "Ensure your skills section explicitly lists the missing technologies found above."]
    optimizedSummary :=
      "Passionate professional with strong expertise in " ++
        String.intercalate ", " (foundKeywords.take 3) ++
        ". Eager to leverage skills in " ++
        String.intercalate " and " (missingKeywords.take 2) ++
        " to drive success at the company. Proven track record of delivering high-quality solutions." }

/-! ## JSON values and a model of the `JSON.parse` builtin -/

/-- A parsed JSON value. -/
inductive Json where
  | null
  | bool (b : Bool)
  | num (q : ℚ)
  | str (s : String)
  | arr (elems : List Json)
  | obj (members : List (String × Json))
deriving Repr

mutual

/-- Decidable equality for `Json` (spelled out because the nested `List`
occurrences defeat automatic derivation). -/
def jsonDecEq : (a b : Json) → Decidable (a = b)
  | .null, .null => isTrue rfl
  | .bool x, .bool y =>
      match decEq x y with
      | isTrue h => isTrue (by rw [h])
      | isFalse h => isFalse (by intro hh; cases hh; exact h rfl)
  | .num x, .num y =>
      match decEq x y with
      | isTrue h => isTrue (by rw [h])
      | isFalse h => isFalse (by intro hh; cases hh; exact h rfl)
  | .str x, .str y =>
      match decEq x y with
      | isTrue h => isTrue (by rw [h])
      | isFalse h => isFalse (by intro hh; cases hh; exact h rfl)
  | .arr xs, .arr ys =>
      match jsonListDecEq xs ys with
      | isTrue h => isTrue (by rw [h])
      | isFalse h => isFalse (by intro hh; cases hh; exact h rfl)
  | .obj xs, .obj ys =>
      match jsonMemsDecEq xs ys with
      | isTrue h => isTrue (by rw [h])
      | isFalse h => isFalse (by intro hh; cases hh; exact h rfl)
  | .null, .bool _ => isFalse (by intro h; cases h)
  | .null, .num _ => isFalse (by intro h; cases h)
  | .null, .str _ => isFalse (by intro h; cases h)
  | .null, .arr _ => isFalse (by intro h; cases h)
  | .null, .obj _ => isFalse (by intro h; cases h)
  | .bool _, .null => isFalse (by intro h; cases h)
  | .bool _, .num _ => isFalse (by intro h; cases h)
  | .bool _, .str _ => isFalse (by intro h; cases h)
  | .bool _, .arr _ => isFalse (by intro h; cases h)
  | .bool _, .obj _ => isFalse (by intro h; cases h)
  | .num _, .null => isFalse (by intro h; cases h)
  | .num _, .bool _ => isFalse (by intro h; cases h)
  | .num _, .str _ => isFalse (by intro h; cases h)
  | .num _, .arr _ => isFalse (by intro h; cases h)
  | .num _, .obj _ => isFalse (by intro h; cases h)
  | .str _, .null => isFalse (by intro h; cases h)
  | .str _, .bool _ => isFalse (by intro h; cases h)
  | .str _, .num _ => isFalse (by intro h; cases h)
  | .str _, .arr _ => isFalse (by intro h; cases h)
  | .str _, .obj _ => isFalse (by intro h; cases h)
  | .arr _, .null => isFalse (by intro h; cases h)
  | .arr _, .bool _ => isFalse (by intro h; cases h)
  | .arr _, .num _ => isFalse (by intro h; cases h)
  | .arr _, .str _ => isFalse (by intro h; cases h)
  | .arr _, .obj _ => isFalse (by intro h; cases h)
  | .obj _, .null => isFalse (by intro h; cases h)
  | .obj _, .bool _ => isFalse (by intro h; cases h)
  | .obj _, .num _ => isFalse (by intro h; cases h)
  | .obj _, .str _ => isFalse (by intro h; cases h)
  | .obj _, .arr _ => isFalse (by intro h; cases h)

/-- Decidable equality for lists of `Json`. -/
def jsonListDecEq : (a b : List Json) → Decidable (a = b)
  | [], [] => isTrue rfl
  | [], _ :: _ => isFalse (by intro h; cases h)
  | _ :: _, [] => isFalse (by intro h; cases h)
  | x :: xs, y :: ys =>
      match jsonDecEq x y, jsonListDecEq xs ys with
      | isTrue h1, isTrue h2 => isTrue (by rw [h1, h2])
      | isFalse h1, _ => isFalse (by intro hh; cases hh; exact h1 rfl)
      | _, isFalse h2 => isFalse (by intro hh; cases hh; exact h2 rfl)

/-- Decidable equality for object member lists. -/
def jsonMemsDecEq : (a b : List (String × Json)) → Decidable (a = b)
  | [], [] => isTrue rfl
  | [], _ :: _ => isFalse (by intro h; cases h)
  | _ :: _, [] => isFalse (by intro h; cases h)
  | (k1, v1) :: xs, (k2, v2) :: ys =>
      match decEq k1 k2, jsonDecEq v1 v2, jsonMemsDecEq xs ys with
      | isTrue h0, isTrue h1, isTrue h2 => isTrue (by rw [h0, h1, h2])
      | isFalse h0, _, _ => isFalse (by intro hh; cases hh; exact h0 rfl)
      | _, isFalse h1, _ => isFalse (by intro hh; cases hh; exact h1 rfl)
      | _, _, isFalse h2 => isFalse (by intro hh; cases hh; exact h2 rfl)

end

instance : DecidableEq Json := jsonDecEq

/-- JSON grammar whitespace (space, tab, LF, CR). -/
def isJsonWs (c : Char) : Bool :=
  c = ' ' || c = Char.ofNat 9 || c = Char.ofNat 10 || c = Char.ofNat 13

/-- Skip JSON whitespace. -/
def skipJWs (cs : List Char) : List Char := cs.dropWhile isJsonWs

/-- Value of a hex digit. -/
def hexVal (c : Char) : Option Nat :=
  if '0' ≤ c && c ≤ '9' then some (c.toNat - 48)
  else if 'a' ≤ c && c ≤ 'f' then some (c.toNat - 87)
  else if 'A' ≤ c && c ≤ 'F' then some (c.toNat - 55)
  else none

/-- Body of a JSON string literal (after the opening quote), with the
standard escapes; control characters are rejected. -/
def parseStrAux (acc : List Char) : List Char → Option (String × List Char)
  | [] => none
  | c :: cs =>
      if c = quoteCh then some (String.mk acc.reverse, cs)
      else if c = backslashCh then
        match cs with
        | [] => none
        | e :: cs' =>
            if e = quoteCh || e = backslashCh || e = '/' then
              parseStrAux (e :: acc) cs'
            else if e = 'b' then parseStrAux (Char.ofNat 8 :: acc) cs'
            else if e = 'f' then parseStrAux (Char.ofNat 12 :: acc) cs'
            else if e = 'n' then parseStrAux (Char.ofNat 10 :: acc) cs'
            else if e = 'r' then parseStrAux (Char.ofNat 13 :: acc) cs'
            else if e = 't' then parseStrAux (Char.ofNat 9 :: acc) cs'
            else if e = 'u' then
              match cs' with
              | h1 :: h2 :: h3 :: h4 :: cs'' =>
                  match hexVal h1, hexVal h2, hexVal h3, hexVal h4 with
                  | some a, some b, some c', some d =>
                      parseStrAux
                        (Char.ofNat (((a * 16 + b) * 16 + c') * 16 + d) :: acc) cs''
                  | _, _, _, _ => none
              | _ => none
            else none
      else if c.toNat < 32 then none
      else parseStrAux (c :: acc) cs

/-- Digit characters. -/
def isDigitCh (c : Char) : Bool := '0' ≤ c && c ≤ '9'

/-- Natural number denoted by a digit run. -/
def natOfDigits (ds : List Char) : Nat :=
  ds.foldl (fun n c => n * 10 + (c.toNat - 48)) 0

/-- The rational `(-1)^neg * mantissa * 10^exp10`, built with `mkRat` so it
evaluates by kernel reduction. -/
def ratOfParts (neg : Bool) (mantissa : Nat) (exp10 : Int) : ℚ :=
  let m : Int := if neg then -(mantissa : Int) else (mantissa : Int)
  match exp10 with
  | Int.ofNat e => mkRat (m * (10 ^ e : Nat)) 1
  | Int.negSucc e => mkRat m (10 ^ (e + 1))

/-- JSON number literal: `-?(0|[1-9][0-9]*)(\.[0-9]+)?([eE][+-]?[0-9]+)?`;
the value of `intPart.fracPart eE` is
`±(digits of intPart and fracPart read as one integer) * 10^(E - |fracPart|)`. -/
def parseNum (cs : List Char) : Option (ℚ × List Char) :=
  let (neg, cs1) :=
    match cs with
    | c :: rest => if c = '-' then (true, rest) else (false, cs)
    | [] => (false, cs)
  let intDigits := cs1.takeWhile isDigitCh
  let cs2 := cs1.drop intDigits.length
  if intDigits.isEmpty then none
  else if intDigits.length > 1 && intDigits.headD '0' = '0' then none
  else
    let (fracDigits, cs3) :=
      match cs2 with
      | c :: rest =>
          if c = '.' then
            let fd := rest.takeWhile isDigitCh
            (fd, rest.drop fd.length)
          else ([], cs2)
      | [] => ([], cs2)
    if (match cs2 with | c :: _ => c = '.' | [] => false) && fracDigits.isEmpty
    then none
    else
      let mantissa := natOfDigits (intDigits ++ fracDigits)
      let fracLen : Int := (fracDigits.length : Int)
      match cs3 with
      | c :: rest =>
          if c = 'e' || c = 'E' then
            let (eneg, rest1) :=
              match rest with
              | d :: rest' =>
                  if d = '-' then (true, rest')
                  else if d = '+' then (false, rest')
                  else (false, rest)
              | [] => (false, rest)
            let expDigits := rest1.takeWhile isDigitCh
            if expDigits.isEmpty then none
            else
              let e : Int := (natOfDigits expDigits : Int)
              let e' := if eneg then -e else e
              some (ratOfParts neg mantissa (e' - fracLen), rest1.drop expDigits.length)
          else some (ratOfParts neg mantissa (-fracLen), cs3)
      | [] => some (ratOfParts neg mantissa (-fracLen), cs3)

mutual

/-- One JSON value, fuelled recursive-descent parser (the fuel is a bound on
the recursion depth; `jsonParse` supplies enough for any input). -/
def parseValue : Nat → List Char → Option (Json × List Char)
  | 0, _ => none
  | Nat.succ fuel, cs =>
      match skipJWs cs with
      | [] => none
      | c :: rest =>
          if c = braceO then
            match skipJWs rest with
            | d :: rest' =>
                if d = braceC then some (Json.obj [], rest')
                else
                  match parseMembers fuel (d :: rest') with
                  | some (ms, r) => some (Json.obj ms, r)
                  | none => none
            | [] => none
          else if c = '[' then
            match skipJWs rest with
            | d :: rest' =>
                if d = ']' then some (Json.arr [], rest')
                else
                  match parseElems fuel (d :: rest') with
                  | some (vs, r) => some (Json.arr vs, r)
                  | none => none
            | [] => none
          else if c = quoteCh then
            match parseStrAux [] rest with
            | some (s, r) => some (Json.str s, r)
            | none => none
          else if charsPref "true".toList (c :: rest) then
            some (Json.bool true, (c :: rest).drop 4)
          else if charsPref "false".toList (c :: rest) then
            some (Json.bool false, (c :: rest).drop 5)
          else if charsPref "null".toList (c :: rest) then
            some (Json.null, (c :: rest).drop 4)
          else
            match parseNum (c :: rest) with
            | some (q, r) => some (Json.num q, r)
            | none => none

/-- Comma-separated array elements up to the closing bracket (strict JSON:
a comma must be followed by another element, so trailing commas fail). -/
def parseElems : Nat → List Char → Option (List Json × List Char)
  | 0, _ => none
  | Nat.succ fuel, cs =>
      match parseValue fuel cs with
      | none => none
      | some (v, r) =>
          match skipJWs r with
          | c :: r' =>
              if c = ',' then
                match parseElems fuel r' with
                | some (vs, rr) => some (v :: vs, rr)
                | none => none
              else if c = ']' then some ([v], r')
              else none
          | [] => none

/-- Comma-separated object members up to the closing brace. -/
def parseMembers : Nat → List Char → Option (List (String × Json) × List Char)
  | 0, _ => none
  | Nat.succ fuel, cs =>
      match skipJWs cs with
      | c :: r =>
          if c = quoteCh then
            match parseStrAux [] r with
            | none => none
            | some (k, r1) =>
                match skipJWs r1 with
                | d :: r2 =>
                    if d = ':' then
                      match parseValue fuel r2 with
                      | none => none
                      | some (v, r3) =>
                          match skipJWs r3 with
                          | e :: r4 =>
                              if e = ',' then
                                match parseMembers fuel r4 with
                                | some (ms, rr) => some ((k, v) :: ms, rr)
                                | none => none
                              else if e = braceC then some ([(k, v)], r4)
                              else none
                          | [] => none
                    else none
                | [] => none
          else none
      | [] => none

end

/-- Model of the `JSON.parse` builtin: parse one value and require only
whitespace after it; `none` models a thrown `SyntaxError`. -/
def jsonParse (s : String) : Option Json :=
  match parseValue (2 * s.length + 8) s.toList with
  | some (v, rest) => if (skipJWs rest).isEmpty then some v else none
  | none => none

/-! ## The two `extractJSON` variants (src/unnamed/part_000) -/

/-- One left-to-right pass of `replace(/```json\s*|\s*```/g, '')`: at each
position, first try to match ````json` plus following whitespace, then a
(maximal) whitespace run followed by ```` ` ````; on failure emit the
character and advance by one. Fuelled to keep the recursion structural;
`stripFencesAll` supplies enough fuel. -/
def stripFencesAux : Nat → List Char → List Char
  | 0, cs => cs
  | Nat.succ f, cs =>
      match cs with
      | [] => []
      | c :: rest =>
          if charsPref "```json".toList cs then
            stripFencesAux f ((cs.drop 7).dropWhile isJsWs)
          else
            let k := (cs.takeWhile isJsWs).length
            if charsPref "```".toList (cs.drop k) then
              stripFencesAux f (cs.drop (k + 3))
            else
              c :: stripFencesAux f rest

/-- `replace(/```json\s*|\s*```/g, '')`. -/
def stripFencesAll (cs : List Char) : List Char :=
  stripFencesAux (cs.length + 1) cs

/-- `replace(/```/g, '')`: remove every remaining triple backtick. -/
def removeTicksAux : Nat → List Char → List Char
  | 0, cs => cs
  | Nat.succ f, cs =>
      match cs with
      | [] => []
      | c :: rest =>
          if charsPref "```".toList cs then removeTicksAux f (cs.drop 3)
          else c :: removeTicksAux f rest

/-- `replace(/```/g, '')` on a character list. -/
def removeTicksAll (cs : List Char) : List Char :=
  removeTicksAux (cs.length + 1) cs

/-- `replace(/,\s*([\]}])/g, '$1')`: drop a comma (and the whitespace) that
directly precedes a closing bracket or brace, scanning left to right. -/
def removeCommasAux : Nat → List Char → List Char
  | 0, cs => cs
  | Nat.succ f, cs =>
      match cs with
      | [] => []
      | c :: rest =>
          if c = ',' then
            let k := (rest.takeWhile isJsWs).length
            match rest.drop k with
            | d :: rest' =>
                if d = ']' || d = braceC then d :: removeCommasAux f rest'
                else c :: removeCommasAux f rest
            | [] => c :: removeCommasAux f rest
          else c :: removeCommasAux f rest

/-- `replace(/,\s*([\]}])/g, '$1')` on a character list. -/
def removeCommasAll (cs : List Char) : List Char :=
  removeCommasAux (cs.length + 1) cs

/-- The first `extractJSON` of the gemini service module (the one the smart
agent uses): strip fences, trim, pick the bracket pair whose opening
character comes first, and parse; any failure yields `null` (`none`). There
is no trailing-comma cleanup in this variant. -/
def extractJSON (text : String) : Option Json :=
  if text = "" then none
  else
    let clean := jsTrim (String.mk (removeTicksAll (stripFencesAll text.toList)))
    let cl := clean.toList
    let firstBrace := idxOf cl braceO
    let firstBracket := idxOf cl '['
    match firstBrace, firstBracket with
    | none, none => none
    | _, _ =>
        let useBrace : Bool :=
          match firstBrace, firstBracket with
          | some _, none => true
          | some b, some k => b < k
          | none, _ => false
        let start := if useBrace then firstBrace.getD 0 else firstBracket.getD 0
        let stop := if useBrace then lastIdxOf cl braceC else lastIdxOf cl ']'
        match stop with
        | none => none
        | some e => jsonParse (jsSubstring clean start (e + 1))

/-- The `{...}` span used by the second variant's fallback branch. -/
def braceSpan (clean : String) : String :=
  match idxOf clean.toList braceO, lastIdxOf clean.toList braceC with
  | some c, some d => jsSubstring clean c (d + 1)
  | _, _ => clean

/-- The second (`Bulletproof`) `extractJSON` variant: strip fences, prefer a
complete `[...]` span when the `[` precedes any `{`, otherwise a `{...}`
span (else leave the text unchanged); parse, and on failure retry once
after removing trailing commas. -/
def extractJSON2 (text : String) : Option Json :=
  if text = "" then none
  else
    let clean := String.mk (removeTicksAll (stripFencesAll text.toList))
    let cl := clean.toList
    let selected :=
      match idxOf cl '[', lastIdxOf cl ']' with
      | some a, some b =>
          if (match idxOf cl braceO with
              | none => true
              | some c => a < c) then
            jsSubstring clean a (b + 1)
          else braceSpan clean
      | _, _ => braceSpan clean
    match jsonParse selected with
    | some v => some v
    | none => jsonParse (String.mk (removeCommasAll selected.toList))

/-! ## Retry wrapper and smart agent (gemini service, src/unnamed/part_000) -/

/-- A JavaScript error as inspected by `retryOperation`/`runSmartAgent`:
optional `message` string and optional numeric `status`. -/
structure JsError where
  message : Option String
  status : Option Nat
deriving DecidableEq, Repr

/-- The rate-limit test of `retryOperation` and `runSmartAgent`:
`err.message?.includes('429') || err.message?.includes('quota') ||
err.status === 429` (optional chaining on a missing message is falsy). -/
def isRateLimitError (e : JsError) : Bool :=
  (match e.message with
   | some m => strIncludes m "429" || strIncludes m "quota"
   | none => false) || e.status == some 429

/-- The error thrown by the `throw new Error("Max retries exceeded")` line
(reachable only when `retries = 0`). -/
def maxRetriesError : JsError :=
  { message := some "Max retries exceeded", status := none }

/-- Observable result of a `retryOperation` run: the value returned or error
thrown, the number of calls made to the wrapped operation, and the list of
backoff delays (milliseconds) awaited between attempts. -/
structure RetryResult (α : Type) where
  result : Except JsError α
  attempts : Nat
  delays : List Nat
deriving Repr

/-- The `for (let i = 0; i < retries; i++)` body of `retryOperation`,
iterating over the remaining attempt indices. The operation is modelled by
an oracle giving the outcome of each attempt. On failure at the last index
the error is rethrown; otherwise a rate-limit error is rethrown at once and
any other error waits `1000 * 2^i` ms before the next attempt. -/
def retryGo {α : Type} (op : Nat → Except JsError α) (retries : Nat) :
    List Nat → RetryResult α
  | [] => { result := .error maxRetriesError, attempts := 0, delays := [] }
  | i :: rest =>
      match op i with
      | .ok v => { result := .ok v, attempts := 1, delays := [] }
      | .error e =>
          if i = retries - 1 then
            { result := .error e, attempts := 1, delays := [] }
          else if isRateLimitError e then
            { result := .error e, attempts := 1, delays := [] }
          else
            let r := retryGo op retries rest
            { result := r.result, attempts := r.attempts + 1,
              delays := 1000 * 2 ^ i :: r.delays }

/-- `retryOperation` of the gemini service module at its default
`retries = 2`, which is what every caller uses (the general loop body is
`retryGo`). -/
def retryOperation {α : Type} (op : Nat → Except JsError α) : RetryResult α :=
  retryGo op 2 (List.range 2)

/-- `runSmartAgent` of the gemini service module: without an API key go
straight to the fallback; otherwise run the operation through
`retryOperation` and, on any error (rate-limit or not), return the
fallback. The returned triple also exposes the attempts/delays of the
retry run for the theorems. -/
def runSmartAgent {α : Type} (hasKey : Bool) (op : Nat → Except JsError α)
    (fallback : α) : α × Nat × List Nat :=
  if !hasKey then (fallback, 0, [])
  else
    let r := retryOperation op
    match r.result with
    | .ok v => (v, r.attempts, r.delays)
    | .error _ => (fallback, r.attempts, r.delays)

/-! ## Automation queue processor (src/components/AutoPilot.tsx) -/

/-- Outcome of one `analyzeAndApply` call as observed by the loop: either a
match result `{matchScore, coverLetter, notes}` or a thrown error. -/
inductive AIOutcome where
  | ok (matchScore : ℚ) (coverLetter : String) (notes : String)
  | err
deriving DecidableEq, Repr

/-- State owned by `App` that the AutoPilot loop reads and writes. -/
structure AutoState where
  jobs : List JobListing
  isRunning : Bool
  logs : List AutomationLog
deriving DecidableEq, Repr

/-- `jobs.findIndex(j => j.status === 'new')`, with `none` for `-1`. -/
def findNewIdx : List JobListing → Option Nat
  | [] => none
  | j :: js =>
      if j.status = JobStatus.new then some 0
      else (findNewIdx js).map (· + 1)

/-- The skip note `Skipped: Low match score (S%). N` (numbers are rendered
with Lean's rational printer, which agrees with JavaScript on the integral
scores the system produces). -/
def skipNote (score : ℚ) (notes : String) : String :=
  "Skipped: Low match score (" ++ toString score ++ "%). " ++ notes

/-- The applied record written by `processNextJob` on a score `≥ 60`
(spreads the snapshot `job`). -/
def appliedRecord (job : JobListing) (score : ℚ) (coverLetter notes : String) :
    JobListing :=
  { job with
    status := JobStatus.applied
    matchScore := some score
    generatedCoverLetter := some coverLetter
    applicationNotes := some ("Ready: " ++ notes) }

/-- The skipped record written by `processNextJob` on a score `< 60`. -/
def skippedRecord (job : JobListing) (score : ℚ) (notes : String) : JobListing :=
  { job with
    status := JobStatus.skipped
    matchScore := some score
    applicationNotes := some (skipNote score notes) }

/-- The failed record written by `processNextJob` when the facade throws. -/
def failedRecord (job : JobListing) : JobListing :=
  { job with
    status := JobStatus.failed
    applicationNotes := some "AI Service Error" }

/-- The terminal record the `try`/`catch` of `processNextJob` writes over
the in-flight index, built from the snapshot `job` and the outcome. -/
def terminalRecord (o : AIOutcome) (job : JobListing) : JobListing :=
  match o with
  | .ok score coverLetter notes =>
      if score < 60 then skippedRecord job score notes
      else appliedRecord job score coverLetter notes
  | .err => failedRecord job

/-- The log entry emitted alongside the terminal write. -/
def terminalLog (o : AIOutcome) (job : JobListing) : AutomationLog :=
  match o with
  | .ok score _ _ =>
      if score < 60 then
        { message := "Skipped " ++ job.company ++ ": Low match (" ++
            toString score ++ "%)"
          type := LogType.info }
      else
        { message := "SUCCESS: Generated application for " ++ job.company ++
            " (" ++ toString score ++ "% Match)"
          type := LogType.success }
  | .err => { message := "Error processing " ++ job.company, type := LogType.error }

/-- The body of `processNextJob` once the first `new` record (`job`, at
`jobIndex`) has been found: mark it `analyzing` (with its log line), then
overwrite the same index with the terminal record and log the outcome. -/
def processFound (st : AutoState) (o : AIOutcome) (jobIndex : Nat)
    (job : JobListing) : AutoState :=
  let jobs1 := st.jobs.set jobIndex { job with status := JobStatus.analyzing }
  let logs1 := addLog st.logs
    ("Analyzing fit for " ++ job.title ++ " at " ++ job.company ++ "...")
    LogType.info
  { jobs := jobs1.set jobIndex (terminalRecord o job)
    isRunning := st.isRunning
    logs := logs1 ++ [terminalLog o job] }

/-- One run of `processNextJob` in `src/components/AutoPilot.tsx`, with the
`analyzeAndApply` result supplied by the oracle `o`. It returns on
`!isRunning`; with no `new` record it clears `isRunning` and logs; otherwise
it marks the first `new` record `analyzing`, then overwrites the same index
with the applied/skipped/failed record built from the snapshot `job`. -/
def processNextJob (st : AutoState) (o : AIOutcome) : AutoState :=
  if st.isRunning = false then st
  else
    match findNewIdx st.jobs with
    | none =>
        { st with
          isRunning := false
          logs := addLog st.logs "Queue empty. Automation paused." LogType.info }
    | some jobIndex =>
        match st.jobs[jobIndex]? with
        | none => st
        | some job => processFound st o jobIndex job

/-- The successive states of the job list inside one `processNextJob` run:
the initial list, the list after the `analyzing` write, and the list after
the terminal write (one element when the run does not touch the list). -/
def iterStates (st : AutoState) (o : AIOutcome) : List (List JobListing) :=
  if st.isRunning = false then [st.jobs]
  else
    match findNewIdx st.jobs with
    | none => [st.jobs]
    | some jobIndex =>
        match st.jobs[jobIndex]? with
        | none => [st.jobs]
        | some job =>
            let jobs1 := st.jobs.set jobIndex { job with status := JobStatus.analyzing }
            [st.jobs, jobs1, jobs1.set jobIndex (terminalRecord o job)]

/-- Iterated runs of the loop body, one oracle outcome per iteration. -/
def runAuto (st : AutoState) : List AIOutcome → AutoState
  | [] => st
  | o :: os => runAuto (processNextJob st o) os

/-- A single status change the spec's state machine allows the automated
loop to perform. -/
def allowedChange (a b : JobStatus) : Prop :=
  (a = JobStatus.new ∧ b = JobStatus.analyzing) ∨
  (a = JobStatus.analyzing ∧
    (b = JobStatus.applied ∨ b = JobStatus.skipped ∨ b = JobStatus.failed))

/-- Between two successive job-list states, every record either keeps its
status or makes one allowed transition. -/
def stepOK (xs ys : List JobListing) : Prop :=
  ∀ (i : Nat) (a b : JobListing), xs[i]? = some a → ys[i]? = some b →
    a.status = b.status ∨ allowedChange a.status b.status

/-! ## Helper lemmas -/

theorem findNewIdx_spec {js : List JobListing} {i : Nat}
    (h : findNewIdx js = some i) :
    ∃ job, js[i]? = some job ∧ job.status = JobStatus.new := by
  induction js generalizing i with
  | nil => simp [findNewIdx] at h
  | cons j js ih =>
      rw [findNewIdx] at h
      by_cases hj : j.status = JobStatus.new
      · rw [if_pos hj] at h
        cases h
        exact ⟨j, by simp, hj⟩
      · rw [if_neg hj] at h
        match hi : findNewIdx js with
        | none => rw [hi] at h; simp at h
        | some i' =>
            rw [hi] at h
            simp only [Option.map_some'] at h
            cases h
            obtain ⟨job, hjob, hst⟩ := ih hi
            exact ⟨job, by simpa using hjob, hst⟩

theorem findNewIdx_eq_none {js : List JobListing}
    (h : ∀ j ∈ js, j.status ≠ JobStatus.new) : findNewIdx js = none := by
  induction js with
  | nil => rfl
  | cons j js ih =>
      rw [findNewIdx, if_neg (h j (List.mem_cons_self j js)),
        ih (fun x hx => h x (List.mem_cons_of_mem j hx))]
      rfl

theorem stepOK_set_new {js : List JobListing} {i : Nat} {job rec : JobListing}
    (hget : js[i]? = some job) (hnew : job.status = JobStatus.new)
    (hrec : rec.status = JobStatus.analyzing) : stepOK js (js.set i rec) := by
  intro k a b ha hb
  by_cases hk : i = k
  · subst hk
    rw [List.getElem?_set_self (by
      have := List.getElem?_eq_some_iff.mp hget
      exact this.choose)] at hb
    cases hb
    rw [ha] at hget
    cases hget
    right
    left
    exact ⟨hnew, hrec⟩
  · rw [List.getElem?_set_ne hk] at hb
    rw [ha] at hb
    cases hb
    left
    rfl

theorem stepOK_set_terminal (mid : JobListing) {js : List JobListing}
    {i : Nat} {rec : JobListing}
    (hget : js[i]? = some mid) (hmid : mid.status = JobStatus.analyzing)
    (hrec : rec.status = JobStatus.applied ∨ rec.status = JobStatus.skipped ∨
      rec.status = JobStatus.failed) : stepOK js (js.set i rec) := by
  intro k a b ha hb
  by_cases hk : i = k
  · subst hk
    rw [List.getElem?_set_self (by
      have := List.getElem?_eq_some_iff.mp hget
      exact this.choose)] at hb
    cases hb
    rw [ha] at hget
    cases hget
    right
    right
    exact ⟨hmid, hrec⟩
  · rw [List.getElem?_set_ne hk] at hb
    rw [ha] at hb
    cases hb
    left
    rfl

theorem processFound_jobs (st : AutoState) (o : AIOutcome) (jobIndex : Nat)
    (job : JobListing) :
    (processFound st o jobIndex job).jobs =
      st.jobs.set jobIndex (terminalRecord o job) := by
  rw [processFound]
  exact List.set_set _ _ _ _

theorem processNextJob_preserves_terminal {st : AutoState} {o : AIOutcome}
    {i : Nat} {job : JobListing} (hget : st.jobs[i]? = some job)
    (hterm : job.status.isTerminal = true) :
    (processNextJob st o).jobs[i]? = some job := by
  rw [processNextJob]
  by_cases hrun : st.isRunning = false
  · rw [if_pos hrun]
    exact hget
  · rw [if_neg hrun]
    cases hidx : findNewIdx st.jobs with
    | none => exact hget
    | some jobIndex =>
        obtain ⟨found, hfound, hnew⟩ := findNewIdx_spec hidx
        have hne : jobIndex ≠ i := by
          intro hcontra
          subst hcontra
          rw [hget] at hfound
          cases hfound
          rw [hnew] at hterm
          simp [JobStatus.isTerminal] at hterm
        show (match st.jobs[jobIndex]? with
          | none => st
          | some job => processFound st o jobIndex job).jobs[i]? = some job
        rw [hfound]
        show (processFound st o jobIndex found).jobs[i]? = some job
        rw [processFound_jobs, List.getElem?_set_ne hne]
        exact hget

theorem runAuto_preserves_terminal {st : AutoState} {os : List AIOutcome}
    {i : Nat} {job : JobListing} (hget : st.jobs[i]? = some job)
    (hterm : job.status.isTerminal = true) :
    (runAuto st os).jobs[i]? = some job := by
  induction os generalizing st with
  | nil => exact hget
  | cons o os ih =>
      exact ih (processNextJob_preserves_terminal hget hterm)

/-! ## Claim C1: score threshold of the automation loop -/

/-- C1: for every state of the queue in which the loop picks a record (the
first record with status `new`, at index `i`) and every match score
`s ∈ [0, 100]` returned by `analyzeAndApply`, the record ends in `applied`
with the score, generated cover letter and `Ready:` note stored when
`s ≥ 60`, and in `skipped` with the score and an explanatory skip note
stored when `s < 60`. -/
theorem autopilot_score_threshold (st : AutoState) (i : Nat)
    (s : ℚ) (coverLetter notes : String)
    (hrun : st.isRunning = true) (hidx : findNewIdx st.jobs = some i)
    (hs0 : 0 ≤ s) (hs1 : s ≤ 100) :
    ∃ job, st.jobs[i]? = some job ∧
      (60 ≤ s →
        (processNextJob st (AIOutcome.ok s coverLetter notes)).jobs[i]? =
          some (appliedRecord job s coverLetter notes)) ∧
      (s < 60 →
        (processNextJob st (AIOutcome.ok s coverLetter notes)).jobs[i]? =
          some (skippedRecord job s notes)) := by
  obtain ⟨job, hget, hnew⟩ := findNewIdx_spec hidx
  have hlen : i < st.jobs.length := (List.getElem?_eq_some_iff.mp hget).choose
  have hbody : ∀ o', (processNextJob st o').jobs[i]? = some (terminalRecord o' job) := by
    intro o'
    rw [processNextJob, if_neg (by rw [hrun]; simp), hidx]
    show (match st.jobs[i]? with
      | none => st
      | some job => processFound st o' i job).jobs[i]? =
        some (terminalRecord o' job)
    rw [hget]
    show (processFound st o' i job).jobs[i]? = some (terminalRecord o' job)
    rw [processFound_jobs, List.getElem?_set_self (by simpa using hlen)]
  refine ⟨job, hget, ?_, ?_⟩
  · intro hge
    rw [hbody (AIOutcome.ok s coverLetter notes)]
    rw [terminalRecord, if_neg (not_lt.mpr hge)]
  · intro hlt
    rw [hbody (AIOutcome.ok s coverLetter notes)]
    rw [terminalRecord, if_pos hlt]

/-- A sample fresh job record for the C1 witness. -/
def c1Job : JobListing :=
  { id := "1", title := "Dev", company := "Acme", location := "Remote",
    url := "u", description := "d", source := "s", status := JobStatus.new }

/-- A sample running state with one `new` record for the C1 witness. -/
def c1State : AutoState := { jobs := [c1Job], isRunning := true, logs := [] }

/-- Witness for C1 at a concrete queue: one `new` record, score 85. -/
theorem autopilot_score_threshold_witness :
    ∃ job, c1State.jobs[0]? = some job ∧
      (60 ≤ (85 : ℚ) →
        (processNextJob c1State (AIOutcome.ok 85 "CL" "good fit")).jobs[0]? =
          some (appliedRecord job 85 "CL" "good fit")) ∧
      ((85 : ℚ) < 60 →
        (processNextJob c1State (AIOutcome.ok 85 "CL" "good fit")).jobs[0]? =
          some (skippedRecord job 85 "good fit")) :=
  autopilot_score_threshold c1State 0 85 "CL" "good fit" rfl (by decide)
    (by norm_num) (by norm_num)

/-! ## Claim C2: the loop's status state machine -/

theorem terminalRecord_status (o : AIOutcome) (job : JobListing) :
    (terminalRecord o job).status = JobStatus.applied ∨
    (terminalRecord o job).status = JobStatus.skipped ∨
    (terminalRecord o job).status = JobStatus.failed := by
  match o with
  | .ok score coverLetter notes =>
      rw [terminalRecord]
      by_cases hlt : score < 60
      · rw [if_pos hlt]
        right
        left
        rfl
      · rw [if_neg hlt]
        left
        rfl
  | .err =>
      right
      right
      rfl

theorem iterStates_chain (st : AutoState) (o : AIOutcome) :
    List.Chain' stepOK (iterStates st o) := by
  rw [iterStates]
  split
  · exact List.chain'_singleton _
  · split
    · exact List.chain'_singleton _
    · next jobIndex hidx =>
        split
        · exact List.chain'_singleton _
        · next found hfound =>
            have hnew : found.status = JobStatus.new := by
              obtain ⟨f', hf', hn'⟩ := findNewIdx_spec hidx
              rw [hfound] at hf'
              cases hf'
              exact hn'
            have hlen : jobIndex < st.jobs.length :=
              (List.getElem?_eq_some_iff.mp hfound).choose
            refine (List.chain'_cons.mpr ⟨?_, List.chain'_cons.mpr
              ⟨?_, List.chain'_singleton _⟩⟩)
            · exact stepOK_set_new hfound hnew rfl
            · refine stepOK_set_terminal
                { found with status := JobStatus.analyzing }
                ?_ rfl (terminalRecord_status o found)
              rw [List.getElem?_set_self (by simpa using hlen)]

theorem iterStates_ends (st : AutoState) (o : AIOutcome) :
    (iterStates st o).head? = some st.jobs ∧
    (iterStates st o).getLast? = some (processNextJob st o).jobs := by
  rw [iterStates, processNextJob]
  split
  · exact ⟨rfl, rfl⟩
  · split
    · exact ⟨rfl, rfl⟩
    · next jobIndex hidx =>
        split
        · exact ⟨rfl, rfl⟩
        · next found hfound =>
            refine ⟨rfl, ?_⟩
            show _ = some (processFound st o jobIndex found).jobs
            rw [processFound_jobs]
            show some ((st.jobs.set jobIndex
              { found with status := JobStatus.analyzing }).set jobIndex
                (terminalRecord o found)) = _
            rw [List.set_set]

/-- C2: the automated loop only performs the transitions
`new → analyzing` and `analyzing → applied/skipped/failed`. Inside one
iteration every intermediate write changes at most one record's status and
only along those edges (`iterStates` lists the successive job lists of the
iteration, starting at the current list and ending at the iteration's
result), so no record jumps from `new` straight to a terminal status; and a
record already in a terminal status is never touched again by any number of
further iterations. -/
theorem autopilot_state_machine :
    (∀ (st : AutoState) (o : AIOutcome),
      List.Chain' stepOK (iterStates st o) ∧
      (iterStates st o).head? = some st.jobs ∧
      (iterStates st o).getLast? = some (processNextJob st o).jobs) ∧
    (∀ (st : AutoState) (os : List AIOutcome) (i : Nat) (job : JobListing),
      st.jobs[i]? = some job → job.status.isTerminal = true →
        (runAuto st os).jobs[i]? = some job) := by
  refine ⟨fun st o => ⟨iterStates_chain st o, iterStates_ends st o⟩, ?_⟩
  intro st os i job hget hterm
  exact runAuto_preserves_terminal hget hterm

/-- A sample applied (terminal) record for the C2 witness. -/
def c2Job : JobListing :=
  { id := "2", title := "QA", company := "Beta", location := "Remote",
    url := "u2", description := "d", source := "s",
    status := JobStatus.applied }

/-- Witness for C2: a record already `applied` is untouched by two further
iterations of the loop. -/
theorem autopilot_state_machine_witness :
    (runAuto { jobs := [c2Job], isRunning := true, logs := [] }
      [AIOutcome.err, AIOutcome.ok 90 "c" "n"]).jobs[0]? = some c2Job :=
  autopilot_state_machine.2
    { jobs := [c2Job], isRunning := true, logs := [] }
    [AIOutcome.err, AIOutcome.ok 90 "c" "n"] 0 c2Job (by decide) (by decide)

/-! ## Claim C3: what happens when no `new` record exists -/

/-- An in-flight record for the C3 state. -/
def c3Job : JobListing :=
  { id := "3", title := "SRE", company := "Gamma", location := "Remote",
    url := "u3", description := "d", source := "s",
    status := JobStatus.analyzing }

/-- A running state whose only record is `analyzing` (none is `new`). -/
def c3State : AutoState := { jobs := [c3Job], isRunning := true, logs := [] }

/-- C3 counterexample: with a record still `analyzing` and no `new` record,
the loop clears `isRunning` anyway (the claim says it would first check for
`analyzing` records and keep running); the log it emits is the
`Queue empty. Automation paused.` line. -/
theorem autopilot_no_analyzing_check_counterexample :
    c3State.isRunning = true ∧
    c3State.jobs.any (fun j => decide (j.status = JobStatus.analyzing)) = true ∧
    (processNextJob c3State AIOutcome.err).isRunning = false ∧
    (processNextJob c3State AIOutcome.err).logs =
      [{ message := "Queue empty. Automation paused.", type := LogType.info }] := by
  decide

/-- C3 amended: on an iteration with `isRunning` true, the loop scans for
the first `new` record; when none exists it unconditionally clears
`isRunning`, leaves the job list unchanged and appends a single
`Queue empty. Automation paused.` info log — it does not check whether any
record is `analyzing`. -/
theorem autopilot_queue_empty_stop (st : AutoState) (o : AIOutcome)
    (hrun : st.isRunning = true)
    (hnone : ∀ j ∈ st.jobs, j.status ≠ JobStatus.new) :
    processNextJob st o =
      { jobs := st.jobs
        isRunning := false
        logs := addLog st.logs "Queue empty. Automation paused." LogType.info } := by
  rw [processNextJob, if_neg (by rw [hrun]; simp), findNewIdx_eq_none hnone]

/-- Witness for C3 (amended) at the state with one `analyzing` record. -/
theorem autopilot_queue_empty_stop_witness :
    processNextJob c3State AIOutcome.err =
      { jobs := c3State.jobs
        isRunning := false
        logs := addLog c3State.logs "Queue empty. Automation paused."
          LogType.info } :=
  autopilot_queue_empty_stop c3State AIOutcome.err rfl (by decide)

/-! ## Claim C4: queue deduplication by url -/

/-- First batch listing of the C4 counterexample (url `u`). -/
def c4Job1 : JobListing :=
  { id := "a", title := "Dev A", company := "A", location := "Remote",
    url := "u", description := "d", source := "s", status := JobStatus.new }

/-- Second batch listing of the C4 counterexample (same url `u`). -/
def c4Job2 : JobListing :=
  { id := "b", title := "Dev B", company := "B", location := "Remote",
    url := "u", description := "d", source := "s", status := JobStatus.new }

/-- C4 counterexample: a batch with two listings sharing one novel url grows
the queue by 2, not by the number of distinct new URLs (1) — the merge only
filters against the existing queue, not within the batch. -/
theorem addJobsToQueue_distinct_url_counterexample :
    (addJobsToQueue [] [c4Job1, c4Job2]).length = 2 ∧
    distinctNewUrls [] [c4Job1, c4Job2] = 1 ∧
    (addJobsToQueue [] [c4Job1, c4Job2]).length ≠
      ([] : List JobListing).length + distinctNewUrls [] [c4Job1, c4Job2] := by
  decide

/-- C4 amended: merging keeps the existing queue as a prefix, appends
exactly the batch entries whose `url` is not already in the queue (in batch
order), and so grows the queue by the count of such entries — duplicates
inside the batch are not collapsed. -/
theorem addJobsToQueue_spec (prev batch : List JobListing) :
    (addJobsToQueue prev batch).take prev.length = prev ∧
    (addJobsToQueue prev batch).drop prev.length =
      batch.filter (fun j => !((prev.map (fun p => p.url)).contains j.url)) ∧
    (addJobsToQueue prev batch).length =
      prev.length +
        batch.countP (fun j => !((prev.map (fun p => p.url)).contains j.url)) ∧
    (∀ j ∈ batch, (prev.map (fun p => p.url)).contains j.url = false →
      j ∈ addJobsToQueue prev batch) := by
  refine ⟨List.take_left _ _, List.drop_left _ _, ?_, ?_⟩
  · show (prev ++ _).length = _
    rw [List.length_append, List.countP_eq_length_filter]
  · intro j hj hnovel
    show j ∈ prev ++ _
    refine List.mem_append_right _ (List.mem_filter.mpr ⟨hj, ?_⟩)
    rw [hnovel]
    rfl

/-- Witness for C4 (amended): a novel listing does end up in the queue. -/
theorem addJobsToQueue_spec_witness : c4Job1 ∈ addJobsToQueue [] [c4Job1] :=
  (addJobsToQueue_spec [] [c4Job1]).2.2.2 c4Job1 (by decide) (by decide)

/-! ## Claim C5: range of the local fallback score -/

/-- C5 counterexample: a job description yielding no keywords (here the
empty string) makes the JavaScript computation divide 0 by 0; the score is
`NaN` (modelled as `none`), not a number in [30, 98]. -/
theorem optimizeResumeLocally_nan_counterexample :
    extractKeywordsLocally "" = [] ∧
    (optimizeResumeLocally "" "python developer").score = none := by
  decide

/-- C5 amended: whenever the job description yields at least one keyword,
the local fallback score is a number in [30, 98] (the keyword-overlap
fraction, rounded, plus the fixed +20 offset, clamped to 30 below and 98
above); with no keywords the 0/0 division yields `NaN` instead of a score. -/
theorem optimizeResumeLocally_score_bounds (jobDesc resumeText : String)
    (h : extractKeywordsLocally jobDesc ≠ []) :
    ∃ s, (optimizeResumeLocally jobDesc resumeText).score = some s ∧
      30 ≤ s ∧ s ≤ 98 := by
  have hlen : ¬((extractKeywordsLocally jobDesc).length = 0) := by
    intro hh
    exact h (List.length_eq_zero.mp hh)
  refine ⟨min 98 (max 30
      (jsRoundRatio
        (((extractKeywordsLocally jobDesc).filter
          (fun k => strIncludes (jsLower resumeText) k)).length * 100)
        (extractKeywordsLocally jobDesc).length + 20)), ?_, ?_, ?_⟩
  · unfold optimizeResumeLocally
    dsimp only
    rw [if_neg hlen]
  · exact Nat.le_min.mpr ⟨by norm_num, Nat.le_max_left _ _⟩
  · exact Nat.min_le_left _ _

/-- Witness for C5 (amended) at a concrete pair of texts (score 70). -/
theorem optimizeResumeLocally_score_bounds_witness :
    ∃ s, (optimizeResumeLocally "python aws" "python").score = some s ∧
      30 ≤ s ∧ s ≤ 98 :=
  optimizeResumeLocally_score_bounds "python aws" "python" (by decide)

/-! ## Claim C6: log retention -/

theorem memLogs_eq (events : List (String × LogType))
    (init : List AutomationLog) :
    memLogs init events =
      init ++ events.map (fun e => { message := e.1, type := e.2 }) := by
  induction events generalizing init with
  | nil => simp [memLogs]
  | cons e es ih =>
      show memLogs (addLog init e.1 e.2) es = _
      rw [ih, addLog, List.map_cons, List.append_assoc]
      rfl

/-- C6: after any sequence of log-producing events the in-memory list holds
every entry in generation order (nothing is truncated during the session),
while the persisted `logs` field is the suffix of the most recent entries,
of length `min 50 n` — never more than 50, and exactly the latest 50 once
more than 50 events have happened. -/
theorem log_retention (events : List (String × LogType)) :
    memLogs [] events =
      events.map (fun e => { message := e.1, type := e.2 }) ∧
    (persistedLogs (memLogs [] events)).length =
      min 50 (memLogs [] events).length ∧
    (memLogs [] events).take ((memLogs [] events).length - 50) ++
        persistedLogs (memLogs [] events) = memLogs [] events := by
  refine ⟨by simpa using memLogs_eq events [], ?_, ?_⟩
  · rw [persistedLogs, List.length_drop]
    omega
  · rw [persistedLogs]
    exact List.take_append_drop _ _

/-! ## Claim C7: retry policy of the AI facade -/

theorem retryGo_two (op : Nat → Except JsError α) :
    retryOperation op = retryGo op 2 [0, 1] := rfl

/-- C7: the retry wrapper makes at most two calls to the wrapped operation;
the only possible backoff delay pattern is a prefix of the doubling series
`1000 * 2^k` starting at one second (with two attempts, at most the single
1000 ms delay); and an error carrying a rate-limit indicator on the first
attempt short-circuits the second attempt: it is rethrown at once with no
delay, and the smart-agent wrapper then falls back locally. -/
theorem retry_policy {α : Type} (op : Nat → Except JsError α) :
    (retryOperation op).attempts ≤ 2 ∧
    (∃ k, k ≤ 1 ∧
      (retryOperation op).delays = (List.range k).map (fun j => 1000 * 2 ^ j)) ∧
    (∀ e, op 0 = Except.error e → isRateLimitError e = true →
      (retryOperation op).result = Except.error e ∧
      (retryOperation op).attempts = 1 ∧
      (retryOperation op).delays = [] ∧
      ∀ fallback : α, runSmartAgent true op fallback = (fallback, 1, [])) := by
  rw [retryGo_two]
  cases h0 : op 0 with
  | ok v =>
      have hgo : retryGo op 2 [0, 1] =
          { result := Except.ok v, attempts := 1, delays := [] } := by
        simp [retryGo, h0]
      refine ⟨by rw [hgo]; norm_num, ⟨0, by norm_num, by rw [hgo]; rfl⟩, ?_⟩
      intro e he
      simp [h0] at he
  | error e =>
      by_cases hrl : isRateLimitError e = true
      · have hgo : retryGo op 2 [0, 1] =
            { result := Except.error e, attempts := 1, delays := [] } := by
          simp [retryGo, h0, hrl]
        refine ⟨by rw [hgo]; norm_num, ⟨0, by norm_num, by rw [hgo]; rfl⟩, ?_⟩
        intro e' he' hrl'
        have hee : e = e' := by simpa [h0] using he'
        subst hee
        refine ⟨by rw [hgo], by rw [hgo], by rw [hgo], ?_⟩
        intro fallback
        rw [runSmartAgent]
        simp only [Bool.not_true, Bool.false_eq_true, if_false]
        rw [retryGo_two, hgo]
      · have hnot : ¬(0 = 2 - 1) := by norm_num
        cases h1 : op 1 with
        | ok v =>
            have hgo : retryGo op 2 [0, 1] =
                { result := Except.ok v, attempts := 2, delays := [1000] } := by
              simp [retryGo, h0, h1, hrl, hnot]
            refine ⟨by rw [hgo], ⟨1, le_refl 1, by rw [hgo]; rfl⟩, ?_⟩
            intro e' he' hrl'
            have hee : e = e' := by simpa [h0] using he'
            subst hee
            exact absurd hrl' hrl
        | error e' =>
            have hgo : retryGo op 2 [0, 1] =
                { result := Except.error e', attempts := 2, delays := [1000] } := by
              simp [retryGo, h0, h1, hrl, hnot]
            refine ⟨by rw [hgo], ⟨1, le_refl 1, by rw [hgo]; rfl⟩, ?_⟩
            intro e'' he'' hrl''
            have hee : e = e'' := by simpa [h0] using he''
            subst hee
            exact absurd hrl'' hrl

/-- The concrete rate-limit error for the C7 witness. -/
def c7Err : JsError := { message := some "429 quota exceeded", status := none }

/-- An operation that always fails with the rate-limit error. -/
def c7Op : Nat → Except JsError Nat := fun _ => Except.error c7Err

/-- Witness for C7: the rate-limit error short-circuits after one attempt,
with no delay, and the smart agent falls back. -/
theorem retry_policy_witness :
    (retryOperation c7Op).result = Except.error c7Err ∧
    (retryOperation c7Op).attempts = 1 ∧
    (retryOperation c7Op).delays = [] ∧
    runSmartAgent true c7Op 0 = (0, 1, []) := by
  have h := (retry_policy c7Op).2.2 c7Err rfl (by decide)
  exact ⟨h.1, h.2.1, h.2.2.1, h.2.2.2 0⟩

/-! ## Claim C8: JSON extraction tolerances -/

/-- C8 counterexample: the first `extractJSON` variant (the one wired into
the smart agent) does not tolerate trailing commas — it yields `null` on
`{"a": 1,}` though it parses the same object without the comma — and
trailing prose containing a stray closing brace also defeats it. -/
theorem extractJSON_counterexample :
    extractJSON "\x7b\"a\": 1,\x7d" = none ∧
    extractJSON "\x7b\"a\": 1\x7d" = some (Json.obj [("a", Json.num 1)]) ∧
    extractJSON "\x7b\"a\": 1\x7d see \x7d" = none := by
  decide

/-- C8 amended: both variants strip code fences and surrounding prose by
selecting an outermost bracket span and return `null` (never throw) when
that span does not parse; the first variant picks the pair whose opening
character comes first and has no trailing-comma recovery, while only the
second variant retries with trailing commas removed (and prefers a complete
`[...]` span). The conjuncts evaluate both variants on inputs exercising
each tolerance. -/
theorem extractJSON_tolerances :
    extractJSON "Here is JSON: ```json\n\x7b\"a\": 1\x7d\n``` hope it helps" =
      some (Json.obj [("a", Json.num 1)]) ∧
    extractJSON2 "Here is JSON: ```json\n\x7b\"a\": 1,\x7d\n``` hope it helps" =
      some (Json.obj [("a", Json.num 1)]) ∧
    extractJSON "\x7b\"a\": 1,\x7d" = none ∧
    extractJSON2 "\x7b\"a\": 1,\x7d" = some (Json.obj [("a", Json.num 1)]) ∧
    extractJSON "x [1, 2] y" = some (Json.arr [Json.num 1, Json.num 2]) ∧
    extractJSON "pick \x7b\"b\": 2\x7d not [3]" =
      some (Json.obj [("b", Json.num 2)]) ∧
    extractJSON "no json at all" = none ∧
    extractJSON2 "no json at all" = none := by
  decide

/-! ## Claim C9: the seniority exclusion filter -/

/-- The senior-titled listing of the spec's filter scenario. -/
def c9Senior : JobListing :=
  { id := "s1", title := "Senior Backend Engineer", company := "X",
    location := "Remote", url := "us", description := "d", source := "s",
    status := JobStatus.new }

/-- The junior-titled listing of the spec's filter scenario. -/
def c9Junior : JobListing :=
  { id := "j1", title := "Junior Backend Engineer", company := "X",
    location := "Remote", url := "uj", description := "d", source := "s",
    status := JobStatus.new }

/-- C9: a listing is dropped by the seniority filter exactly when some
exclusion keyword of its level occurs (as a substring, after lowercasing
the title) in its title; for "Entry Level", "Senior Backend Engineer" is
dropped — in any capitalization — and "Junior Backend Engineer" is kept, so
of the spec's two scenario listings only the junior one survives the
filter step of the aggregator. -/
theorem seniority_filter_spec :
    (∀ title level, doesJobMatchLevel title level = false ↔
      ∃ k ∈ exclusionKeywords level, strIncludes (jsLower title) k = true) ∧
    doesJobMatchLevel "Senior Backend Engineer" "Entry Level" = false ∧
    doesJobMatchLevel "SENIOR BACKEND ENGINEER" "Entry Level" = false ∧
    doesJobMatchLevel "Junior Backend Engineer" "Entry Level" = true ∧
    applyLevelFilter [c9Senior, c9Junior] (some "Entry Level") = [c9Junior] := by
  refine ⟨?_, by decide, by decide, by decide, by decide⟩
  intro title level
  rw [doesJobMatchLevel]
  simp [List.any_eq_true]

/-! ## Claim C10: levels outside the exclusion table filter nothing -/

/-- C10: for any experience level that is not one of the six keys of the
exclusion table, the keyword list is empty, so the predicate accepts every
title and the filter step keeps every listing; in particular the base
profile type's values "Entry", "Mid" and "Senior" are not keys, so with
them no listing is ever dropped. -/
theorem seniority_filter_unknown_level (level title : String)
    (h1 : level ≠ "Entry Level") (h2 : level ≠ "Associate")
    (h3 : level ≠ "Mid-Senior Level") (h4 : level ≠ "Director")
    (h5 : level ≠ "Executive") (h6 : level ≠ "Internship") :
    exclusionKeywords level = [] ∧
    doesJobMatchLevel title level = true ∧
    (∀ jobs : List JobListing, applyLevelFilter jobs (some level) = jobs) ∧
    doesJobMatchLevel title "Entry" = true ∧
    doesJobMatchLevel title "Mid" = true ∧
    doesJobMatchLevel title "Senior" = true := by
  have hkw : exclusionKeywords level = [] := by
    rw [exclusionKeywords, if_neg h1, if_neg h2, if_neg h3, if_neg h4,
      if_neg h5, if_neg h6]
  have hmatch : ∀ t : String, doesJobMatchLevel t level = true := by
    intro t
    rw [doesJobMatchLevel, hkw]
    rfl
  refine ⟨hkw, hmatch title, ?_, rfl, rfl, rfl⟩
  intro jobs
  rw [applyLevelFilter]
  exact List.filter_eq_self.mpr (fun j _ => hmatch j.title)

/-- Witness for C10 at the base profile level "Mid" and a senior title. -/
theorem seniority_filter_unknown_level_witness :
    exclusionKeywords "Mid" = [] ∧
    doesJobMatchLevel "Senior Backend Engineer" "Mid" = true ∧
    (∀ jobs : List JobListing, applyLevelFilter jobs (some "Mid") = jobs) ∧
    doesJobMatchLevel "Senior Backend Engineer" "Entry" = true ∧
    doesJobMatchLevel "Senior Backend Engineer" "Mid" = true ∧
    doesJobMatchLevel "Senior Backend Engineer" "Senior" = true :=
  seniority_filter_unknown_level "Mid" "Senior Backend Engineer"
    (by decide) (by decide) (by decide) (by decide) (by decide) (by decide)

end JobFlow
